import Mathlib

/-!
Verification development for the oVice / realtime-voice audio bridge.

The definitions below are a shallow embedding of the repository's audio
and connection-lifecycle code:

* PCM16 encode/decode as performed by the injected page script
  (`AudioBridge.getInitScript`): clamping, asymmetric scaling, and the
  `Int16Array` truncation semantics of JavaScript, over exact rationals.
* The synthetic microphone stream's block-processing callback
  (`processor.onaudioprocess`): a FIFO queue of base64 PCM16 chunks,
  modelled here as lists of 16-bit sample values (base64 transport is
  an injective marshalling step and is treated as the identity on the
  sample sequence).
* The page-side bounded pre-relay queue (`__remoteAudioQueue`).
* The `GeminiLiveClient` and `OpenAIRealtimeClient` connection state
  machines: websocket state, session flags, reconnect backoff, and the
  synchronous effects of `connect` / `sendAudio` / `close` and of the
  websocket event handlers, with emitted network messages and warnings
  reified as action lists.
* The provider-selector factory `createRealtimeClient`.
-/

/-! ## PCM16 sample codec (page script, `getInitScript`) -/

/-- Truncation toward zero, the integer conversion JavaScript applies when a
number is stored into an `Int16Array` (ToIntegerOrInfinity). -/
def jsTrunc (q : ℚ) : ℤ := if 0 ≤ q then ⌊q⌋ else ⌈q⌉

/-- `Math.max(-1, Math.min(1, v))` from the capture loop. -/
def clampSample (v : ℚ) : ℚ := max (-1) (min 1 v)

/-- Float-to-PCM16 conversion from the capture path:
`s < 0 ? s * 0x8000 : s * 0x7FFF` after clamping, then `Int16Array` storage. -/
def encodePcm16 (v : ℚ) : ℤ :=
  let s := clampSample v
  if s < 0 then jsTrunc (s * 32768) else jsTrunc (s * 32767)

/-- PCM16-to-float conversion from the playback path:
`int16Array[i] / 32768.0`.  Exact in binary64 for all 16-bit inputs, so the
rational value is the value the page computes. -/
def decodePcm16 (i : ℤ) : ℚ := (i : ℚ) / 32768

/-! ## Synthetic microphone stream (`processor.onaudioprocess`) -/

/-- The script-processor block size used by `createScriptProcessor(4096, 0, 1)`. -/
def bufferSize : Nat := 4096

/-- Decode a dequeued chunk (its `Int16Array` view) to normalized floats. -/
def decodeChunk (c : List ℤ) : List ℚ := c.map decodePcm16

/-- Effect of the bounded copy loop
`for (i = 0; i < outputData.length && i < int16Array.length; i++)`
on an output buffer holding `prev`: the first `min prev.length samples.length`
positions are overwritten, the rest keep their previous contents. -/
def overwritePrefix (prev samples : List ℚ) : List ℚ :=
  samples.take prev.length ++ prev.drop samples.length

/-- One invocation of the synthetic stream's `onaudioprocess` callback:
if the queue is empty the whole buffer is zero-filled (`outputData.fill(0)`),
otherwise exactly one chunk is dequeued (`shift()`), decoded, and copied. -/
def onAudioProcess (prev : List ℚ) (queue : List (List ℤ)) :
    List ℚ × List (List ℤ) :=
  match queue with
  | [] => (List.replicate prev.length 0, [])
  | c :: rest => (overwritePrefix prev (decodeChunk c), rest)

/-- Events acting on the synthetic stream queue: a push from the bridge
(`__geminiAudioQueue.push`) or one audio-scheduler tick. -/
inductive SynthEvent
  | push (c : List ℤ)
  | tick
deriving DecidableEq

/-- Observable result of one tick: silence, or the chunk that was played. -/
inductive TickOut
  | silence
  | played (c : List ℤ)
deriving DecidableEq

/-- Queue transition for one event, recording what the tick emitted. -/
def synthStep (q : List (List ℤ)) : SynthEvent → List (List ℤ) × List TickOut
  | SynthEvent.push c => (q ++ [c], [])
  | SynthEvent.tick =>
    match q with
    | [] => ([], [TickOut.silence])
    | c :: rest => (rest, [TickOut.played c])

/-- Run a sequence of pushes and ticks, accumulating the tick outputs. -/
def synthRun (q : List (List ℤ)) : List SynthEvent → List (List ℤ) × List TickOut
  | [] => (q, [])
  | e :: es =>
    let step := synthStep q e
    let rest := synthRun step.1 es
    (rest.1, step.2 ++ rest.2)

/-- The chunks pushed by an event sequence, in push order. -/
def pushedChunks : List SynthEvent → List (List ℤ)
  | [] => []
  | SynthEvent.push c :: es => c :: pushedChunks es
  | SynthEvent.tick :: es => pushedChunks es

/-- The chunks actually played, in play order (silent ticks omitted). -/
def playedChunks : List TickOut → List (List ℤ)
  | [] => []
  | TickOut.silence :: os => playedChunks os
  | TickOut.played c :: os => c :: playedChunks os

/-! ## Page-side pre-relay FIFO (`__remoteAudioQueue`) -/

/-- The cap on the page-side pre-relay queue. -/
def remoteQueueCap : Nat := 1000

/-- `if (w.__remoteAudioQueue.length < 1000) w.__remoteAudioQueue.push(base64)`:
pushes while the relay function is unavailable are kept only below the cap. -/
def pushRemoteAudio (q : List String) (x : String) : List String :=
  if q.length < remoteQueueCap then q ++ [x] else q

/-- The flush in `setupOViceToGeminiStream`: every queued entry is forwarded
to `sendAudioToGemini` in order, then `__remoteAudioQueue = []`. The first
component is the forwarded sequence, the second the queue afterwards. -/
def flushRemoteQueue (q : List String) : List String × List String := (q, [])

/-! ## Websocket connection state shared by both clients -/

/-- The `ws` field: `null`, or a socket whose `readyState` may be `OPEN`. -/
inductive WsConn
  | noSocket
  | socket (isOpen : Bool)
deriving DecidableEq

/-- `ws?.readyState === WebSocket.OPEN`. -/
def WsConn.isOpenB : WsConn → Bool
  | WsConn.socket true => true
  | _ => false

/-! ## GeminiLiveClient state machine -/

/-- Mutable fields of `GeminiLiveClient` relevant to connection lifecycle. -/
structure GeminiState where
  ws : WsConn
  isSessionStarted : Bool
  isIntentionallyClosed : Bool
  reconnectAttempts : Nat
  audioSendCount : Nat
deriving DecidableEq

/-- Field initializers of `GeminiLiveClient`. -/
def initialGeminiState : GeminiState :=
  { ws := WsConn.noSocket
    isSessionStarted := false
    isIntentionallyClosed := false
    reconnectAttempts := 0
    audioSendCount := 0 }

/-- Externally visible effects of the Gemini client. -/
inductive GeminiAction
  | openSocket
  | sendSetup
  | sendAudioMsg (data : String) (mime : String)
  | scheduleReconnect (delayMs : Nat)
  | connectCall
  | closeSocket
  | warn
deriving DecidableEq

/-- `reconnectDelay = 2000`. -/
def geminiBaseReconnectDelay : Nat := 2000

/-- `Math.min(this.reconnectDelay * this.reconnectAttempts, 30000)`. -/
def geminiReconnectDelay (attempts : Nat) : Nat :=
  min (geminiBaseReconnectDelay * attempts) 30000

/-- Synchronous part of `connect()`: early return when the socket is already
open, otherwise clear the intentional-close flag and open a new socket. -/
def geminiConnect (s : GeminiState) : GeminiState × List GeminiAction :=
  if s.ws.isOpenB then (s, [])
  else ({ s with isIntentionallyClosed := false, ws := WsConn.socket false },
        [GeminiAction.openSocket])

/-- `setupSession()`: guarded on the socket being open; sends the setup
message and sets `isSessionStarted = true` immediately after sending. -/
def geminiSetupSession (s : GeminiState) : GeminiState × List GeminiAction :=
  if s.ws.isOpenB then
    ({ s with isSessionStarted := true }, [GeminiAction.sendSetup])
  else (s, [GeminiAction.warn])

/-- The `ws.on('open')` handler: reset the attempt counter and run
`setupSession()`. -/
def geminiHandleOpen (s : GeminiState) : GeminiState × List GeminiAction :=
  geminiSetupSession { s with ws := WsConn.socket true, reconnectAttempts := 0 }

/-- `attemptReconnect()`: bail out when intentionally closed, otherwise bump
the attempt counter and schedule a timer with the linear capped backoff. -/
def geminiAttemptReconnect (s : GeminiState) : GeminiState × List GeminiAction :=
  if s.isIntentionallyClosed then (s, [])
  else
    let attempts := s.reconnectAttempts + 1
    ({ s with reconnectAttempts := attempts },
     [GeminiAction.scheduleReconnect (geminiReconnectDelay attempts)])

/-- The `ws.on('close')` handler: null the socket, clear the session flag,
then reconnect unless the closure was intentional. -/
def geminiHandleClose (s : GeminiState) : GeminiState × List GeminiAction :=
  geminiAttemptReconnect { s with ws := WsConn.noSocket, isSessionStarted := false }

/-- The scheduled reconnect timer firing: the callback re-checks
`isIntentionallyClosed` before invoking `connect()`. -/
def geminiTimerFire (s : GeminiState) : GeminiState × List GeminiAction :=
  if s.isIntentionallyClosed then (s, [])
  else
    let r := geminiConnect s
    (r.1, GeminiAction.connectCall :: r.2)

/-- `sendAudio(audioData, mimeType)`: warn-and-return when the socket is not
open or the session has not been started, otherwise send one
`realtimeInput.mediaChunks` message and bump `audioSendCount`. -/
def geminiSendAudio (s : GeminiState) (data mime : String) :
    GeminiState × List GeminiAction :=
  if ¬ s.ws.isOpenB then (s, [GeminiAction.warn])
  else if ¬ s.isSessionStarted then (s, [GeminiAction.warn])
  else ({ s with audioSendCount := s.audioSendCount + 1 },
        [GeminiAction.sendAudioMsg data mime])

/-- `close()`: set the intentional-close flag and, when a socket exists,
close it and null the reference.  `isSessionStarted` is not touched here. -/
def geminiClose (s : GeminiState) : GeminiState × List GeminiAction :=
  ({ s with isIntentionallyClosed := true, ws := WsConn.noSocket },
   if s.ws = WsConn.noSocket then [] else [GeminiAction.closeSocket])

/-- `isConnected()`: `ws?.readyState === OPEN && this.isSessionStarted`. -/
def geminiIsConnected (s : GeminiState) : Bool :=
  s.ws.isOpenB && s.isSessionStarted

/-- Events driving the Gemini client: API calls made by the bridge, websocket
callbacks, and the reconnect timer. -/
inductive GeminiEvent
  | callConnect
  | wsOpen
  | recvSetupComplete
  | recvAudioDelta (data : String)
  | wsClose
  | callClose
  | reconnectTimerFire
  | callSendAudio (data : String) (mime : String)
deriving DecidableEq

/-- One event of the Gemini client. `recvSetupComplete` only logs: the
`handleMessage` branch for `setupComplete` changes no state. -/
def geminiStep (s : GeminiState) : GeminiEvent → GeminiState × List GeminiAction
  | GeminiEvent.callConnect =>
    let r := geminiConnect s
    (r.1, GeminiAction.connectCall :: r.2)
  | GeminiEvent.wsOpen => geminiHandleOpen s
  | GeminiEvent.recvSetupComplete => (s, [])
  | GeminiEvent.recvAudioDelta _ => (s, [])
  | GeminiEvent.wsClose => geminiHandleClose s
  | GeminiEvent.callClose => geminiClose s
  | GeminiEvent.reconnectTimerFire => geminiTimerFire s
  | GeminiEvent.callSendAudio d m => geminiSendAudio s d m

/-- Run a sequence of events, accumulating the emitted actions. -/
def geminiRun (s : GeminiState) : List GeminiEvent → GeminiState × List GeminiAction
  | [] => (s, [])
  | e :: es =>
    let r := geminiStep s e
    let rest := geminiRun r.1 es
    (rest.1, r.2 ++ rest.2)

/-! ## OpenAIRealtimeClient state machine -/

/-- Mutable fields of `OpenAIRealtimeClient` relevant to connection lifecycle. -/
structure OpenAIState where
  ws : WsConn
  isReady : Bool
  audioSendCount : Nat
deriving DecidableEq

/-- Field initializers of `OpenAIRealtimeClient`. -/
def initialOpenAIState : OpenAIState :=
  { ws := WsConn.noSocket, isReady := false, audioSendCount := 0 }

/-- Externally visible effects of the OpenAI client. -/
inductive OpenAIAction
  | openSocket
  | sendSessionUpdate
  | sendAudioMsg (data : String)
  | connectCall
  | closeSocket
  | warn
deriving DecidableEq

/-- Synchronous part of `connect()`: early return when the socket is already
open, otherwise open a new socket. -/
def openaiConnect (s : OpenAIState) : OpenAIState × List OpenAIAction :=
  if s.ws.isOpenB then (s, [])
  else ({ s with ws := WsConn.socket false }, [OpenAIAction.openSocket])

/-- The `session.created` branch of `handleMessage`: set `isReady = true`
and run `configureSession()` (which sends only while the socket is open). -/
def openaiHandleSessionCreated (s : OpenAIState) : OpenAIState × List OpenAIAction :=
  ({ s with isReady := true },
   if s.ws.isOpenB then [OpenAIAction.sendSessionUpdate] else [])

/-- The `ws.on('close')` handler: null the socket and clear `isReady`.
The OpenAI client schedules no reconnect. -/
def openaiHandleClose (s : OpenAIState) : OpenAIState × List OpenAIAction :=
  ({ s with ws := WsConn.noSocket, isReady := false }, [])

/-- `sendAudio(audioData, mimeType)`: warn-and-return when the socket is not
open or the session is not ready, otherwise send one
`input_audio_buffer.append` message and bump `audioSendCount`. -/
def openaiSendAudio (s : OpenAIState) (data : String) :
    OpenAIState × List OpenAIAction :=
  if ¬ s.ws.isOpenB then (s, [OpenAIAction.warn])
  else if ¬ s.isReady then (s, [OpenAIAction.warn])
  else ({ s with audioSendCount := s.audioSendCount + 1 },
        [OpenAIAction.sendAudioMsg data])

/-- `close()`: close and null the socket when present, clear `isReady`. -/
def openaiClose (s : OpenAIState) : OpenAIState × List OpenAIAction :=
  ({ s with ws := WsConn.noSocket, isReady := false },
   if s.ws = WsConn.noSocket then [] else [OpenAIAction.closeSocket])

/-- `isConnected()`: `Boolean(ws && ws.readyState === OPEN && this.isReady)`. -/
def openaiIsConnected (s : OpenAIState) : Bool :=
  s.ws.isOpenB && s.isReady

/-- Events driving the OpenAI client. -/
inductive OpenAIEvent
  | callConnect
  | wsOpen
  | recvSessionCreated
  | recvAudioDelta (data : String)
  | wsClose
  | callClose
  | callSendAudio (data : String)
deriving DecidableEq

/-- One event of the OpenAI client. -/
def openaiStep (s : OpenAIState) : OpenAIEvent → OpenAIState × List OpenAIAction
  | OpenAIEvent.callConnect =>
    let r := openaiConnect s
    (r.1, OpenAIAction.connectCall :: r.2)
  | OpenAIEvent.wsOpen => ({ s with ws := WsConn.socket true }, [])
  | OpenAIEvent.recvSessionCreated => openaiHandleSessionCreated s
  | OpenAIEvent.recvAudioDelta _ => (s, [])
  | OpenAIEvent.wsClose => openaiHandleClose s
  | OpenAIEvent.callClose => openaiClose s
  | OpenAIEvent.callSendAudio d => openaiSendAudio s d

/-- Run a sequence of events, accumulating the emitted actions. -/
def openaiRun (s : OpenAIState) : List OpenAIEvent → OpenAIState × List OpenAIAction
  | [] => (s, [])
  | e :: es =>
    let r := openaiStep s e
    let rest := openaiRun r.1 es
    (rest.1, r.2 ++ rest.2)

/-! ## Provider selector (`createRealtimeClient`) -/

/-- `RealtimeProvider` from `realtime/types.ts`. -/
inductive RealtimeProvider
  | GEMINI
  | OPENAI
deriving DecidableEq

/-- The `gemini` block of `RealtimeVoiceConfig`. -/
structure GeminiProviderConfig where
  apiKey : String
  modelName : String
  voiceName : String
  temperature : ℚ
  topP : ℚ
  systemInstructions : String

/-- The `openai` block of `RealtimeVoiceConfig`. -/
structure OpenAIProviderConfig where
  apiKey : String
  model : String
  voice : String
  temperature : ℚ
  topP : ℚ
  systemInstructions : String

/-- `RealtimeVoiceConfig` from `realtime/types.ts`: a provider discriminant
plus optional per-provider blocks. -/
structure RealtimeVoiceConfig where
  provider : RealtimeProvider
  gemini : Option GeminiProviderConfig
  openai : Option OpenAIProviderConfig

/-- A constructed client, tagged by provider and carrying its configuration. -/
inductive RealtimeClient
  | geminiClient (cfg : GeminiProviderConfig)
  | openaiClient (cfg : OpenAIProviderConfig)

/-- Which provider a constructed client belongs to. -/
def clientProvider : RealtimeClient → RealtimeProvider
  | RealtimeClient.geminiClient _ => RealtimeProvider.GEMINI
  | RealtimeClient.openaiClient _ => RealtimeProvider.OPENAI

/-- `createRealtimeClient` from `realtime/clientFactory.ts`: throws a
configuration error when the selected provider's block is absent, otherwise
constructs the matching client.  Thrown errors are modelled as `Except.error`. -/
def createRealtimeClient (cfg : RealtimeVoiceConfig) : Except String RealtimeClient :=
  match cfg.provider with
  | RealtimeProvider.GEMINI =>
    match cfg.gemini with
    | none => Except.error "Gemini configuration missing"
    | some g => Except.ok (RealtimeClient.geminiClient g)
  | RealtimeProvider.OPENAI =>
    match cfg.openai with
    | none => Except.error "OpenAI configuration missing"
    | some o => Except.ok (RealtimeClient.openaiClient o)

/-! ## Spec-level trace predicates and example traces -/

/-- Spec-side predicate: the Gemini transport is currently open — set by the
socket's `open` event, cleared by its `close` event and by `close()`. -/
def geminiOpenUpd (b : Bool) : GeminiEvent → Bool
  | GeminiEvent.wsOpen => true
  | GeminiEvent.wsClose => false
  | GeminiEvent.callClose => false
  | _ => b

/-- Spec-side predicate: the Gemini setup message has been sent and the
socket has not gone down since.  The client sends setup (and flips
`isSessionStarted`) in the `open` handler; receiving `setupComplete` plays no
role, and `close()` does not clear the flag (only the socket `close` event
does). -/
def geminiSetupSentUpd (b : Bool) : GeminiEvent → Bool
  | GeminiEvent.wsOpen => true
  | GeminiEvent.wsClose => false
  | _ => b

/-- Spec-side predicate: the OpenAI transport is currently open. -/
def openaiOpenUpd (b : Bool) : OpenAIEvent → Bool
  | OpenAIEvent.wsOpen => true
  | OpenAIEvent.wsClose => false
  | OpenAIEvent.callClose => false
  | _ => b

/-- Spec-side predicate: a `session.created` acknowledgment has been received
from OpenAI and the connection has not gone down since. -/
def openaiReadyUpd (b : Bool) : OpenAIEvent → Bool
  | OpenAIEvent.recvSessionCreated => true
  | OpenAIEvent.wsClose => false
  | OpenAIEvent.callClose => false
  | _ => b

/-- A Gemini trace that connects and opens the socket but never receives a
`setupComplete` acknowledgment. -/
def geminiNoAckTrace : List GeminiEvent := [GeminiEvent.callConnect, GeminiEvent.wsOpen]

/-- The Gemini client state reached by `geminiNoAckTrace`: socket open,
`isSessionStarted = true`, no acknowledgment ever received. -/
def geminiReadyNoAckState : GeminiState := (geminiRun initialGeminiState geminiNoAckTrace).1

/-! ## Theorems: synthetic microphone stream -/

theorem overwritePrefix_length (prev samples : List ℚ) :
    (overwritePrefix prev samples).length = prev.length := by
  simp only [overwritePrefix, List.length_append, List.length_take, List.length_drop]
  omega

theorem synthRun_fifo (es : List SynthEvent) :
    ∀ q : List (List ℤ),
      q ++ pushedChunks es = playedChunks (synthRun q es).2 ++ (synthRun q es).1 := by
  induction es with
  | nil => intro q; simp [synthRun, pushedChunks, playedChunks]
  | cons e es ih =>
    intro q
    cases e with
    | push c =>
      have h := ih (q ++ [c])
      simp only [synthRun, synthStep, pushedChunks, playedChunks, List.nil_append]
      rw [List.append_assoc] at h
      simpa using h
    | tick =>
      cases q with
      | nil =>
        have h := ih ([] : List (List ℤ))
        simpa [synthRun, synthStep, pushedChunks, playedChunks] using h
      | cons c rest =>
        have h := ih rest
        simp only [synthRun, synthStep, pushedChunks, playedChunks, List.cons_append]
        rw [h]
        simp

/-- C1: for every sequence of chunks pushed onto the synthetic microphone
stream's queue, each `onaudioprocess` invocation emits silence (an all-zero
block) when the queue is empty at call time, and otherwise dequeues exactly
one chunk, decodes it from PCM16 to normalized floats and writes it into the
output block, consuming chunks in push (FIFO) order: over any interleaving of
pushes and ticks, the played chunks followed by the residual queue are exactly
the pushed chunks in order. -/
theorem c1_synth_stream_silence_one_chunk_fifo :
    (∀ prev : List ℚ, onAudioProcess prev [] = (List.replicate prev.length 0, []))
    ∧ (∀ (prev : List ℚ) (c : List ℤ) (rest : List (List ℤ)),
        onAudioProcess prev (c :: rest) = (overwritePrefix prev (decodeChunk c), rest))
    ∧ (∀ q : List (List ℤ), ((onAudioProcess (List.replicate bufferSize 0) q).1).length = bufferSize)
    ∧ (∀ es : List SynthEvent,
        pushedChunks es = playedChunks (synthRun [] es).2 ++ (synthRun [] es).1) := by
  refine ⟨fun prev => rfl, fun prev c rest => rfl, fun q => ?_, fun es => ?_⟩
  · cases q with
    | nil => simp [onAudioProcess]
    | cons c rest => simp [onAudioProcess, overwritePrefix_length]
  · simpa using synthRun_fifo es []

/-- C9: a dequeued chunk is copied into at most one block: exactly
`min blockLen chunkLen` output positions are overwritten with the decoded
samples, positions past the chunk's length keep the buffer's previous
contents (no explicit zero fill), the excess samples of an over-long chunk
are discarded, and the rest of the queue is untouched (no carry-over). -/
theorem c9_bounded_copy_no_carryover :
    ∀ (prev : List ℚ) (c : List ℤ) (rest : List (List ℤ)),
      ((onAudioProcess prev (c :: rest)).1.length = prev.length)
      ∧ (∀ i, i < prev.length → i < c.length →
          ((onAudioProcess prev (c :: rest)).1)[i]? = (decodeChunk c)[i]?)
      ∧ (∀ i, c.length ≤ i →
          ((onAudioProcess prev (c :: rest)).1)[i]? = prev[i]?)
      ∧ (onAudioProcess prev (c :: rest)).2 = rest := by
  intro prev c rest
  have hdec : (decodeChunk c).length = c.length := by simp [decodeChunk]
  refine ⟨by simp [onAudioProcess, overwritePrefix_length], ?_, ?_, rfl⟩
  · intro i hip hic
    simp only [onAudioProcess, overwritePrefix]
    rw [List.getElem?_append, if_pos (by simp [hdec]; omega), List.getElem?_take, if_pos hip]
  · intro i hci
    simp only [onAudioProcess, overwritePrefix]
    by_cases hcp : c.length ≤ prev.length
    · rw [List.getElem?_append_right (by simp [hdec]; omega), List.getElem?_drop]
      have hlen2 : (List.take prev.length (decodeChunk c)).length = c.length := by
        simp [hdec]
        omega
      rw [hlen2]
      congr 1
      omega
    · push_neg at hcp
      rw [List.getElem?_append_right (by simp [hdec]; omega)]
      have hdrop : prev.drop (decodeChunk c).length = [] := by
        apply List.drop_eq_nil_of_le
        omega
      rw [hdrop]
      rw [List.getElem?_eq_none (by simp), List.getElem?_eq_none (by omega)]

/-! ## Theorems: page-side pre-relay FIFO -/

theorem foldl_pushRemoteAudio (xs : List String) :
    ∀ q : List String, q.length ≤ remoteQueueCap →
      List.foldl pushRemoteAudio q xs = q ++ xs.take (remoteQueueCap - q.length) := by
  induction xs with
  | nil => intro q _; simp
  | cons x xs ih =>
    intro q hq
    by_cases h : q.length < remoteQueueCap
    · have hpush : pushRemoteAudio q x = q ++ [x] := by simp [pushRemoteAudio, h]
      have hlen : (q ++ [x]).length ≤ remoteQueueCap := by simp; omega
      rw [List.foldl_cons, hpush, ih _ hlen]
      have hcap : remoteQueueCap - q.length = (remoteQueueCap - (q ++ [x]).length) + 1 := by
        simp; omega
      rw [hcap, List.take_succ_cons, List.append_assoc]
      simp
    · have hfull : q.length = remoteQueueCap := by omega
      have hpush : pushRemoteAudio q x = q := by simp [pushRemoteAudio, h]
      rw [List.foldl_cons, hpush, ih _ hq]
      have : remoteQueueCap - q.length = 0 := by omega
      simp [this]

/-- C3: the page-side pre-relay FIFO never exceeds 1000 entries; starting
empty, any push sequence leaves exactly its first 1000 entries (a push onto a
full queue is discarded and all prior entries preserved); and the flush
forwards the queued entries in original order and empties the queue. -/
theorem c3_remote_queue_cap_and_flush :
    (∀ xs : List String, List.foldl pushRemoteAudio [] xs = xs.take remoteQueueCap)
    ∧ (∀ xs : List String, (List.foldl pushRemoteAudio [] xs).length ≤ remoteQueueCap)
    ∧ (∀ (q : List String) (x : String), q.length = remoteQueueCap → pushRemoteAudio q x = q)
    ∧ (∀ q : List String, flushRemoteQueue q = (q, [])) := by
  refine ⟨fun xs => ?_, fun xs => ?_, fun q x hq => ?_, fun q => rfl⟩
  · simpa using foldl_pushRemoteAudio xs [] (by simp)
  · have h := foldl_pushRemoteAudio xs [] (by simp)
    simp only [List.nil_append, Nat.sub_zero] at h
    rw [h]
    simp [List.length_take]
  · simp [pushRemoteAudio, hq]

/-- Witness for C3's hypothesis-bearing conjunct: pushing onto a queue that
already holds exactly 1000 entries leaves it unchanged. -/
theorem c3_remote_queue_cap_and_flush_witness :
    pushRemoteAudio (List.replicate 1000 "a") "b" = List.replicate 1000 "a" :=
  c3_remote_queue_cap_and_flush.2.2.1 (List.replicate 1000 "a") "b"
    (by rw [List.length_replicate]; rfl)

/-! ## Theorems: PCM16 codec -/

theorem clampSample_idem (w : ℚ) : clampSample (clampSample w) = clampSample w := by
  unfold clampSample
  rcases le_total w (-1) with h | h
  · rw [min_eq_right (le_trans h (by norm_num)), max_eq_left h,
      min_eq_right (by norm_num : (-1 : ℚ) ≤ 1), max_self]
  · rcases le_total 1 w with h2 | h2
    · rw [min_eq_left h2, max_eq_right (by norm_num : (-1 : ℚ) ≤ 1), min_self,
        max_eq_right (by norm_num : (-1 : ℚ) ≤ 1)]
    · rw [min_eq_right h2, max_eq_right h, min_eq_right h2, max_eq_right h]

theorem encodePcm16_clamped (v : ℚ) (h1 : -1 ≤ v) (h2 : v ≤ 1) :
    encodePcm16 v = if v < 0 then jsTrunc (v * 32768) else jsTrunc (v * 32767) := by
  have hc : clampSample v = v := by rw [clampSample, min_eq_right h2, max_eq_right h1]
  simp only [encodePcm16, hc]

theorem pcm16_round_trip_bound_neg (v : ℚ) (h1 : -1 ≤ v) (h0 : v ≤ 0) :
    |decodePcm16 (encodePcm16 v) - v| ≤ 1 / 32768 := by
  rcases lt_or_eq_of_le h0 with hv | hv
  · rw [encodePcm16_clamped v h1 (by linarith), if_pos hv, jsTrunc,
      if_neg (by push_neg; nlinarith)]
    have hle := Int.le_ceil (v * 32768)
    have hlt := Int.ceil_lt_add_one (v * 32768)
    rw [decodePcm16, abs_le]
    constructor <;> linarith
  · subst hv
    have h : encodePcm16 0 = 0 := by
      rw [encodePcm16_clamped 0 (by norm_num) (by norm_num), if_neg (by norm_num), jsTrunc,
        if_pos (by norm_num),
        show ((0 : ℚ) * 32767) = ((0 : ℤ) : ℚ) by norm_num, Int.floor_intCast]
    rw [h, decodePcm16]
    norm_num

theorem pcm16_round_trip_bound (v : ℚ) (h1 : -1 ≤ v) (h2 : v ≤ 1) :
    |decodePcm16 (encodePcm16 v) - v| ≤ 2 / 32768 := by
  by_cases hv : v < 0
  · have := pcm16_round_trip_bound_neg v h1 (le_of_lt hv)
    linarith
  · push_neg at hv
    rw [encodePcm16_clamped v h1 h2, if_neg (by push_neg; linarith), jsTrunc,
      if_pos (by nlinarith)]
    have hle := Int.floor_le (v * 32767)
    have hlt := Int.sub_one_lt_floor (v * 32767)
    rw [decodePcm16, abs_le]
    constructor <;> linarith

/-- C2 counterexample: at the sample value 9999/10000 the PCM16 round trip
misses the original value by more than one quantization step (1/32768): the
non-negative side encodes with scale 0x7FFF but decodes with scale 0x8000,
which contradicts the claim that the round trip is accurate to one step for
every sample in [-1, 1]. -/
theorem c2_round_trip_counterexample :
    (-1 : ℚ) ≤ 9999 / 10000 ∧ (9999 : ℚ) / 10000 ≤ 1 ∧
    (1 : ℚ) / 32768 < |decodePcm16 (encodePcm16 (9999 / 10000)) - 9999 / 10000| := by
  refine ⟨by norm_num, by norm_num, ?_⟩
  have henc : encodePcm16 ((9999 : ℚ) / 10000) = 32763 := by
    rw [encodePcm16_clamped _ (by norm_num) (by norm_num), if_neg (by norm_num), jsTrunc,
      if_pos (by norm_num)]
    norm_num [Int.floor_eq_iff]
  rw [henc, decodePcm16]
  rw [abs_of_nonpos (by norm_num)]
  norm_num

/-- C2 amended: the conversion clamps to [-1, 1] and scales negative samples
by 0x8000 and non-negative ones by 0x7FFF; -1 maps to -32768 and 1 to 32767;
the round trip reproduces every sample of [-1, 1] within TWO quantization
steps (2/32768), and within one step on [-1, 0] — one step does not hold on
the positive side (see the counterexample). -/
theorem c2_pcm16_codec_amended :
    encodePcm16 (-1) = -32768
    ∧ encodePcm16 1 = 32767
    ∧ (∀ w : ℚ, encodePcm16 w = encodePcm16 (clampSample w))
    ∧ (∀ v : ℚ, -1 ≤ v → v ≤ 1 → |decodePcm16 (encodePcm16 v) - v| ≤ 2 / 32768)
    ∧ (∀ v : ℚ, -1 ≤ v → v ≤ 0 → |decodePcm16 (encodePcm16 v) - v| ≤ 1 / 32768) := by
  refine ⟨?_, ?_, ?_, pcm16_round_trip_bound, pcm16_round_trip_bound_neg⟩
  · rw [encodePcm16_clamped (-1) (by norm_num) (by norm_num), if_pos (by norm_num), jsTrunc,
      if_neg (by norm_num),
      show ((-1 : ℚ) * 32768) = ((-32768 : ℤ) : ℚ) by norm_num, Int.ceil_intCast]
  · rw [encodePcm16_clamped 1 (by norm_num) (by norm_num), if_neg (by norm_num), jsTrunc,
      if_pos (by norm_num),
      show ((1 : ℚ) * 32767) = ((32767 : ℤ) : ℚ) by norm_num, Int.floor_intCast]
  · intro w
    simp only [encodePcm16, clampSample_idem]

/-- Witness for C2's amended bounds at concrete samples 1/2 and -1/2. -/
theorem c2_pcm16_codec_amended_witness :
    |decodePcm16 (encodePcm16 (1 / 2)) - 1 / 2| ≤ 2 / 32768
    ∧ |decodePcm16 (encodePcm16 (-1 / 2)) - (-1 / 2)| ≤ 1 / 32768 :=
  ⟨c2_pcm16_codec_amended.2.2.2.1 (1 / 2) (by norm_num) (by norm_num),
   c2_pcm16_codec_amended.2.2.2.2 (-1 / 2) (by norm_num) (by norm_num)⟩

/-! ## Theorems: client connection state -/

theorem geminiStep_ws_isOpenB (s : GeminiState) (e : GeminiEvent) :
    (geminiStep s e).1.ws.isOpenB = geminiOpenUpd s.ws.isOpenB e := by
  cases e <;>
    simp only [geminiStep, geminiConnect, geminiHandleOpen, geminiSetupSession,
      geminiHandleClose, geminiAttemptReconnect, geminiTimerFire, geminiClose,
      geminiSendAudio, geminiOpenUpd, WsConn.isOpenB] <;>
    split_ifs <;> simp_all [WsConn.isOpenB]

theorem geminiStep_isSessionStarted (s : GeminiState) (e : GeminiEvent) :
    (geminiStep s e).1.isSessionStarted = geminiSetupSentUpd s.isSessionStarted e := by
  cases e <;>
    simp only [geminiStep, geminiConnect, geminiHandleOpen, geminiSetupSession,
      geminiHandleClose, geminiAttemptReconnect, geminiTimerFire, geminiClose,
      geminiSendAudio, geminiSetupSentUpd, WsConn.isOpenB] <;>
    split_ifs <;> simp_all

theorem geminiRun_isConnected (es : List GeminiEvent) :
    ∀ s : GeminiState,
      geminiIsConnected (geminiRun s es).1
        = (List.foldl geminiOpenUpd s.ws.isOpenB es
            && List.foldl geminiSetupSentUpd s.isSessionStarted es) := by
  induction es with
  | nil => intro s; simp [geminiRun, geminiIsConnected]
  | cons e es ih =>
    intro s
    simp only [geminiRun, List.foldl_cons]
    rw [ih, ← geminiStep_ws_isOpenB, ← geminiStep_isSessionStarted]

theorem openaiStep_ws_isOpenB (s : OpenAIState) (e : OpenAIEvent) :
    (openaiStep s e).1.ws.isOpenB = openaiOpenUpd s.ws.isOpenB e := by
  cases e <;>
    simp only [openaiStep, openaiConnect, openaiHandleSessionCreated, openaiHandleClose,
      openaiClose, openaiSendAudio, openaiOpenUpd, WsConn.isOpenB] <;>
    split_ifs <;> simp_all [WsConn.isOpenB]

theorem openaiStep_isReady (s : OpenAIState) (e : OpenAIEvent) :
    (openaiStep s e).1.isReady = openaiReadyUpd s.isReady e := by
  cases e <;>
    simp only [openaiStep, openaiConnect, openaiHandleSessionCreated, openaiHandleClose,
      openaiClose, openaiSendAudio, openaiReadyUpd, WsConn.isOpenB] <;>
    split_ifs <;> simp_all

theorem openaiRun_isConnected (es : List OpenAIEvent) :
    ∀ s : OpenAIState,
      openaiIsConnected (openaiRun s es).1
        = (List.foldl openaiOpenUpd s.ws.isOpenB es
            && List.foldl openaiReadyUpd s.isReady es) := by
  induction es with
  | nil => intro s; simp [openaiRun, openaiIsConnected]
  | cons e es ih =>
    intro s
    simp only [openaiRun, List.foldl_cons]
    rw [ih, ← openaiStep_ws_isOpenB, ← openaiStep_isReady]

/-- C4 counterexample: after `connect` and the socket `open` event — with no
`setupComplete` acknowledgment ever received — the Gemini client already
reports `isConnected() = true`, because `isSessionStarted` is set when the
client sends its setup message, not when the provider acknowledges it.  This
refutes the claim that `isConnected()` is true only once the session-ready
acknowledgment has been received. -/
theorem c4_counterexample_connected_without_ack :
    geminiIsConnected (geminiRun initialGeminiState geminiNoAckTrace).1 = true
    ∧ GeminiEvent.recvSetupComplete ∉ geminiNoAckTrace := by
  exact ⟨rfl, by decide⟩

/-- C4 amended: `isConnected()` is true iff the transport is open AND the
provider-specific session flag is set since the transport last went down —
for OpenAI the flag records receipt of `session.created`; for Gemini it
records that the client sent its setup message on socket open (receipt of
`setupComplete` plays no role, and `close()` does not clear the Gemini
flag — it clears the transport instead). -/
theorem c4_is_connected_characterization :
    (∀ es : List GeminiEvent,
      geminiIsConnected (geminiRun initialGeminiState es).1
        = (List.foldl geminiOpenUpd false es && List.foldl geminiSetupSentUpd false es))
    ∧ (∀ es : List OpenAIEvent,
      openaiIsConnected (openaiRun initialOpenAIState es).1
        = (List.foldl openaiOpenUpd false es && List.foldl openaiReadyUpd false es)) := by
  constructor
  · intro es
    simpa [initialGeminiState, WsConn.isOpenB] using geminiRun_isConnected es initialGeminiState
  · intro es
    simpa [initialOpenAIState, WsConn.isOpenB] using openaiRun_isConnected es initialOpenAIState

/-- C5 counterexample: with the socket open and the setup message sent but no
session-ready acknowledgment received, the Gemini client's `sendAudio`
transmits the audio message — refuting the claim that `sendAudio` is a no-op
whenever the session-ready signal has not yet been received. -/
theorem c5_counterexample_send_without_ack :
    (geminiSendAudio (geminiRun initialGeminiState geminiNoAckTrace).1 "QUJD" "audio/pcm").2
      = [GeminiAction.sendAudioMsg "QUJD" "audio/pcm"]
    ∧ GeminiEvent.recvSetupComplete ∉ geminiNoAckTrace := by
  exact ⟨rfl, by decide⟩

/-- C5 amended: `sendAudio` called while the channel is not open or the
session flag is not set (Gemini: setup message not yet sent since the socket
came up; OpenAI: `session.created` not received) leaves the state unchanged,
transmits nothing, and emits exactly one warning. -/
theorem c5_send_audio_noop_before_ready :
    (∀ (s : GeminiState) (d m : String),
      s.ws.isOpenB = false ∨ s.isSessionStarted = false →
      geminiSendAudio s d m = (s, [GeminiAction.warn]))
    ∧ (∀ (s : OpenAIState) (d : String),
      s.ws.isOpenB = false ∨ s.isReady = false →
      openaiSendAudio s d = (s, [OpenAIAction.warn])) := by
  constructor
  · rintro s d m (h | h) <;> simp [geminiSendAudio, h]
  · rintro s d (h | h) <;> simp [openaiSendAudio, h]

/-- Witness for C5: on the freshly constructed clients (no socket), a
`sendAudio` call warns and changes nothing. -/
theorem c5_send_audio_noop_before_ready_witness :
    geminiSendAudio initialGeminiState "QUJD" "audio/pcm"
      = (initialGeminiState, [GeminiAction.warn])
    ∧ openaiSendAudio initialOpenAIState "QUJD"
      = (initialOpenAIState, [OpenAIAction.warn]) :=
  ⟨c5_send_audio_noop_before_ready.1 initialGeminiState "QUJD" "audio/pcm" (Or.inl rfl),
   c5_send_audio_noop_before_ready.2 initialOpenAIState "QUJD" (Or.inl rfl)⟩

theorem geminiRun_consecutive_closes (k : Nat) :
    ∀ s : GeminiState, s.isIntentionallyClosed = false →
      (geminiRun s (List.replicate k GeminiEvent.wsClose)).2
        = (List.range k).map
            (fun i => GeminiAction.scheduleReconnect
              (geminiReconnectDelay (s.reconnectAttempts + i + 1))) := by
  induction k with
  | zero => intro s _; simp [geminiRun]
  | succ k ih =>
    intro s h
    rw [List.replicate_succ]
    have hstep : geminiStep s GeminiEvent.wsClose
        = (⟨WsConn.noSocket, false, s.isIntentionallyClosed,
            s.reconnectAttempts + 1, s.audioSendCount⟩,
           [GeminiAction.scheduleReconnect
             (geminiReconnectDelay (s.reconnectAttempts + 1))]) := by
      simp [geminiStep, geminiHandleClose, geminiAttemptReconnect, h]
    simp only [geminiRun, hstep]
    rw [ih _ (by simp [h])]
    have harith : ∀ i : Nat,
        s.reconnectAttempts + 1 + i + 1 = s.reconnectAttempts + (i + 1) + 1 := by
      intro i
      omega
    simp only [List.range_succ_eq_map, List.map_cons, List.map_map, Function.comp_def,
      Nat.succ_eq_add_one, Nat.add_zero, List.singleton_append, harith]

theorem geminiRun_keeps_closed_and_never_reconnects (es : List GeminiEvent) :
    ∀ s : GeminiState, s.isIntentionallyClosed = true →
      GeminiEvent.callConnect ∉ es →
      (geminiRun s es).1.isIntentionallyClosed = true
      ∧ GeminiAction.connectCall ∉ (geminiRun s es).2 := by
  induction es with
  | nil => intro s h _; exact ⟨by simpa [geminiRun] using h, by simp [geminiRun]⟩
  | cons e es ih =>
    intro s h hmem
    have hmem2 : GeminiEvent.callConnect ∉ es := fun hc => hmem (List.mem_cons_of_mem _ hc)
    have he : e ≠ GeminiEvent.callConnect := fun hc => hmem (hc ▸ List.mem_cons_self _ _)
    have hstep : (geminiStep s e).1.isIntentionallyClosed = true
        ∧ GeminiAction.connectCall ∉ (geminiStep s e).2 := by
      cases e <;>
        simp_all [geminiStep, geminiHandleOpen, geminiSetupSession, geminiHandleClose,
          geminiAttemptReconnect, geminiTimerFire, geminiClose, geminiSendAudio,
          geminiConnect] <;>
        split_ifs <;> simp_all
    obtain ⟨h1, h2⟩ := hstep
    obtain ⟨h3, h4⟩ := ih _ h1 hmem2
    refine ⟨by simpa [geminiRun] using h3, ?_⟩
    simp only [geminiRun, List.mem_append]
    rintro (hc | hc)
    · exact h2 hc
    · exact h4 hc

theorem geminiRun_callClose_flag (pre : List GeminiEvent) :
    ∀ s : GeminiState,
      (geminiRun s (pre ++ [GeminiEvent.callClose])).1.isIntentionallyClosed = true := by
  induction pre with
  | nil => intro s; simp [geminiRun, geminiStep, geminiClose]
  | cons e pre ih =>
    intro s
    simpa [geminiRun] using ih (geminiStep s e).1

/-- C6: across consecutive unintentional disconnects with no successful
reconnect in between, the scheduled delay for the k-th attempt is
`min (2000 * k) 30000` — non-decreasing in k and capped at 30000 — and once
`close()` has been called, no further `connect()` invocation is ever made by
the reconnect machinery (timers that fire after `close()` re-check the
intentional-close flag and do nothing), for any continuation that does not
itself call `connect()`. -/
theorem c6_backoff_monotone_capped_and_close_stops_reconnect :
    (∀ (k : Nat) (s : GeminiState),
      s.isIntentionallyClosed = false → s.reconnectAttempts = 0 →
      (geminiRun s (List.replicate k GeminiEvent.wsClose)).2
        = (List.range k).map
            (fun i => GeminiAction.scheduleReconnect (geminiReconnectDelay (i + 1))))
    ∧ (∀ n : Nat, geminiReconnectDelay n ≤ geminiReconnectDelay (n + 1))
    ∧ (∀ n : Nat, geminiReconnectDelay n ≤ 30000)
    ∧ (∀ pre post : List GeminiEvent, GeminiEvent.callConnect ∉ post →
        GeminiAction.connectCall ∉
          (geminiRun (geminiRun initialGeminiState (pre ++ [GeminiEvent.callClose])).1 post).2) := by
  refine ⟨fun k s h h0 => ?_, fun n => ?_, fun n => ?_, fun pre post hmem => ?_⟩
  · rw [geminiRun_consecutive_closes k s h]
    simp [h0]
  · simp only [geminiReconnectDelay, geminiBaseReconnectDelay]
    omega
  · simp only [geminiReconnectDelay, geminiBaseReconnectDelay]
    omega
  · exact (geminiRun_keeps_closed_and_never_reconnects post _
      (geminiRun_callClose_flag pre initialGeminiState) hmem).2

/-- Witness for C6 at concrete inputs: two consecutive unintentional closes
schedule 2000 ms then 4000 ms; the delay formula is monotone and capped at
attempt 15/16; and after `close()` a firing reconnect timer plus another
socket closure trigger no `connect()`. -/
theorem c6_backoff_monotone_capped_and_close_stops_reconnect_witness :
    ((geminiRun initialGeminiState (List.replicate 2 GeminiEvent.wsClose)).2
      = [GeminiAction.scheduleReconnect 2000, GeminiAction.scheduleReconnect 4000])
    ∧ geminiReconnectDelay 15 ≤ geminiReconnectDelay 16
    ∧ geminiReconnectDelay 16 ≤ 30000
    ∧ GeminiAction.connectCall ∉
        (geminiRun (geminiRun initialGeminiState
            ([GeminiEvent.wsClose] ++ [GeminiEvent.callClose])).1
          [GeminiEvent.reconnectTimerFire, GeminiEvent.wsClose]).2 := by
  refine ⟨?_, c6_backoff_monotone_capped_and_close_stops_reconnect.2.1 15,
    c6_backoff_monotone_capped_and_close_stops_reconnect.2.2.1 16,
    c6_backoff_monotone_capped_and_close_stops_reconnect.2.2.2
      [GeminiEvent.wsClose] [GeminiEvent.reconnectTimerFire, GeminiEvent.wsClose] (by decide)⟩
  rw [c6_backoff_monotone_capped_and_close_stops_reconnect.1 2 initialGeminiState rfl rfl]
  rfl

/-- C8: for either provider, `connect()` while the transport is already open
returns immediately: the state is unchanged and no second network channel is
opened (no action at all, in particular no `openSocket`). -/
theorem c8_connect_idempotent_when_open :
    (∀ s : GeminiState, s.ws.isOpenB = true → geminiConnect s = (s, []))
    ∧ (∀ s : OpenAIState, s.ws.isOpenB = true → openaiConnect s = (s, [])) := by
  constructor
  · intro s h
    simp [geminiConnect, h]
  · intro s h
    simp [openaiConnect, h]

/-- Witness for C8: concrete already-open client states. -/
theorem c8_connect_idempotent_when_open_witness :
    geminiConnect ⟨WsConn.socket true, true, false, 0, 0⟩
      = (⟨WsConn.socket true, true, false, 0, 0⟩, [])
    ∧ openaiConnect ⟨WsConn.socket true, true, 0⟩
      = (⟨WsConn.socket true, true, 0⟩, []) :=
  ⟨c8_connect_idempotent_when_open.1 ⟨WsConn.socket true, true, false, 0, 0⟩ rfl,
   c8_connect_idempotent_when_open.2 ⟨WsConn.socket true, true, 0⟩ rfl⟩

/-- C10 counterexample: on a Gemini state with an open socket and the session
flag set, `close()` leaves `isSessionStarted = true` — `close()` clears the
transport reference but not the session-ready flag (only the socket's own
`close` event clears that flag) — even though `isConnected()` is false after
`close()`. -/
theorem c10_counterexample_close_keeps_session_flag :
    (geminiClose geminiReadyNoAckState).1.isSessionStarted = true
    ∧ geminiIsConnected (geminiClose geminiReadyNoAckState).1 = false := by
  exact ⟨rfl, rfl⟩

/-- C10 amended: immediately after `close()` returns, `isConnected()` is
false for both providers — `close()` nulls the transport reference (and, for
OpenAI only, also clears the session-ready flag; Gemini leaves
`isSessionStarted` set until the socket close event fires) — and calling
`close()` again changes nothing. -/
theorem c10_close_makes_disconnected_and_idempotent :
    (∀ s : GeminiState,
      geminiIsConnected (geminiClose s).1 = false
      ∧ (geminiClose s).1.ws = WsConn.noSocket
      ∧ (geminiClose (geminiClose s).1).1 = (geminiClose s).1)
    ∧ (∀ s : OpenAIState,
      openaiIsConnected (openaiClose s).1 = false
      ∧ (openaiClose s).1.ws = WsConn.noSocket
      ∧ (openaiClose s).1.isReady = false
      ∧ (openaiClose (openaiClose s).1).1 = (openaiClose s).1) := by
  constructor
  · intro s
    refine ⟨?_, rfl, rfl⟩
    simp [geminiClose, geminiIsConnected, WsConn.isOpenB]
  · intro s
    refine ⟨?_, rfl, rfl, rfl⟩
    simp [openaiClose, openaiIsConnected, WsConn.isOpenB]

/-! ## Theorems: provider selector -/

/-- C7: the factory is a pure function of the configuration value: with the
selected provider's block present it returns a client of that provider
carrying that block, and it fails with a configuration error exactly when the
selected provider's block is absent. -/
theorem c7_factory_error_iff_missing_block :
    (∀ (g : GeminiProviderConfig) (o : Option OpenAIProviderConfig),
      createRealtimeClient ⟨RealtimeProvider.GEMINI, some g, o⟩
        = Except.ok (RealtimeClient.geminiClient g))
    ∧ (∀ (g : Option GeminiProviderConfig) (o : OpenAIProviderConfig),
      createRealtimeClient ⟨RealtimeProvider.OPENAI, g, some o⟩
        = Except.ok (RealtimeClient.openaiClient o))
    ∧ (∀ cfg : RealtimeVoiceConfig,
      (∃ e, createRealtimeClient cfg = Except.error e)
        ↔ ((cfg.provider = RealtimeProvider.GEMINI ∧ cfg.gemini = none)
           ∨ (cfg.provider = RealtimeProvider.OPENAI ∧ cfg.openai = none)))
    ∧ (∀ (cfg : RealtimeVoiceConfig) (c : RealtimeClient),
      createRealtimeClient cfg = Except.ok c → clientProvider c = cfg.provider) := by
  refine ⟨fun g o => rfl, fun g o => rfl, fun cfg => ?_, fun cfg c h => ?_⟩
  · obtain ⟨p, g, o⟩ := cfg
    cases p <;> cases g <;> cases o <;>
      simp [createRealtimeClient]
  · obtain ⟨p, g, o⟩ := cfg
    cases p <;> cases g <;> cases o <;>
      simp only [createRealtimeClient] at h <;>
      simp at h <;>
      (subst h
       rfl)

/-- Witness for C7's hypothesis-bearing conjunct at a concrete configuration. -/
theorem c7_factory_error_iff_missing_block_witness :
    clientProvider (RealtimeClient.geminiClient ⟨"key", "model", "voice", 1, 1, "si"⟩)
      = RealtimeProvider.GEMINI :=
  c7_factory_error_iff_missing_block.2.2.2
    ⟨RealtimeProvider.GEMINI, some ⟨"key", "model", "voice", 1, 1, "si"⟩, none⟩
    (RealtimeClient.geminiClient ⟨"key", "model", "voice", 1, 1, "si"⟩) rfl

/-- Witness for C9 at a concrete buffer and chunk: a three-sample buffer of
ones, a two-sample chunk: the first position takes the decoded sample, the
position past the chunk keeps its previous value, and the queue tail is
untouched. -/
theorem c9_bounded_copy_no_carryover_witness :
    ((onAudioProcess [1, 1, 1] ([16384, -32768] :: [[7]])).1.length
        = ([1, 1, 1] : List ℚ).length)
    ∧ ((onAudioProcess [1, 1, 1] ([16384, -32768] :: [[7]])).1)[0]?
        = (decodeChunk [16384, -32768])[0]?
    ∧ ((onAudioProcess [1, 1, 1] ([16384, -32768] :: [[7]])).1)[2]?
        = ([1, 1, 1] : List ℚ)[2]?
    ∧ (onAudioProcess [1, 1, 1] ([16384, -32768] :: [[7]])).2 = [[7]] := by
  have h := c9_bounded_copy_no_carryover [1, 1, 1] [16384, -32768] [[7]]
  exact ⟨h.1, h.2.1 0 (by simp) (by simp), h.2.2.1 2 (by simp), h.2.2.2⟩
